import Mathlib

/-!
Verification of the Muul database-client core against its specification.

The development shallowly embeds the TypeScript core of the repository:
the remote execution protocol (`executeRemoteQuery`), remote schema
discovery (`getRemoteDatabaseSchema`), the dialect registry lookup and
`explainQuery` rewriting from `services/muulService.ts`, the embedded
SQLite engine (`services/engines/SqliteEngine.ts`), the document-store
engine (`services/engines/MongoEngine.ts`), and the join-inference
heuristic of `handleEditorDrop` in `App.tsx`.

JavaScript dynamic values are modelled by `JsVal` (primitives only);
objects are association lists in key-insertion order, matching the key
enumeration order of JS objects with string keys.  External
collaborators (the sql.js engine, Papa.parse) are modelled minimally,
with each model's scope stated in its doc comment.
-/

/-- Kernel-computable lower-casing (the character-list model of
JavaScript `toLowerCase` / Lean `String.toLower`). -/
def strLower (s : String) : String := String.mk (s.data.map Char.toLower)

/-- Kernel-computable upper-casing. -/
def strUpper (s : String) : String := String.mk (s.data.map Char.toUpper)

/-- Kernel-computable suffix test. -/
def strEndsWith (s suffix : String) : Bool := suffix.data.isSuffixOf s.data

/-- Kernel-computable prefix test. -/
def strStartsWith (s pre : String) : Bool := pre.data.isPrefixOf s.data

/-- Kernel-computable character drop from the front. -/
def strDrop (s : String) (n : Nat) : String := String.mk (s.data.drop n)

/-- Kernel-computable character drop from the back. -/
def strDropRight (s : String) (n : Nat) : String :=
  String.mk (s.data.take (s.data.length - n))

/-- Split a character list at every occurrence of a separator. -/
def splitChar (c : Char) : List Char → List (List Char)
  | [] => [[]]
  | x :: xs =>
    let r := splitChar c xs
    if x == c then [] :: r
    else
      match r with
      | [] => [[x]]
      | h :: t => (x :: h) :: t

/-- Kernel-computable split on a single-character separator. -/
def strSplitChar (s : String) (c : Char) : List String := (splitChar c s.data).map String.mk

/-- Contiguous-sublist test (the model of JavaScript `includes`). -/
def listIsInfix (pat : List Char) : List Char → Bool
  | [] => pat.isPrefixOf []
  | x :: xs => pat.isPrefixOf (x :: xs) || listIsInfix pat xs

/-- Primitive JavaScript value: `undefined`, `null`, booleans, numbers
(restricted to integers, which covers all values the embedded code
manipulates), and strings. -/
inductive JsVal where
  | undefined
  | null
  | bool (b : Bool)
  | num (n : Int)
  | str (s : String)
  deriving DecidableEq, Repr

/-- JavaScript truthiness of a primitive value. -/
def JsVal.truthy : JsVal → Bool
  | .undefined => false
  | .null => false
  | .bool b => b
  | .num n => n != 0
  | .str s => s != ""

/-- JavaScript strict equality (`===`) on primitive values. -/
def jsStrictEq : JsVal → JsVal → Bool
  | .undefined, .undefined => true
  | .null, .null => true
  | .bool a, .bool b => a == b
  | .num a, .num b => a == b
  | .str a, .str b => a == b
  | _, _ => false

/-- A JavaScript object with primitive-valued properties, as an
association list in key-insertion order. -/
abbrev JsObj := List (String × JsVal)

/-- Property read `o[k]`, `none` when the key is absent. -/
def jsGet (o : JsObj) (k : String) : Option JsVal :=
  (o.find? (fun p => p.1 == k)).map (fun p => p.2)

/-- Property read `o[k]`, yielding `undefined` when the key is absent. -/
def jsGetD (o : JsObj) (k : String) : JsVal :=
  (jsGet o k).getD .undefined

/-- Property write `o[k] = v`: overwrites in place, or appends a new key
at the end (JS insertion order). -/
def jsSet (o : JsObj) (k : String) (v : JsVal) : JsObj :=
  if o.any (fun p => p.1 == k) then o.map (fun p => if p.1 == k then (k, v) else p)
  else o ++ [(k, v)]

/-- Key enumeration `Object.keys(o)`. -/
def jsKeys (o : JsObj) : List String := o.map (fun p => p.1)

/-- JavaScript `a || b` on primitive values. -/
def jsOr (a b : JsVal) : JsVal := if a.truthy then a else b

/-- String rendering of a value interpolated into a template literal. -/
def jsTemplateString : JsVal → String
  | .undefined => "undefined"
  | .null => "null"
  | .bool b => if b then "true" else "false"
  | .num n => toString n
  | .str s => s

/-- Parse a canonical decimal digit string. -/
def digitsToNat? (s : String) : Option Nat :=
  if s == "" then none
  else s.data.foldl (fun acc c => acc.bind (fun a =>
    if c.isDigit then some (a * 10 + (c.toNat - 48)) else none)) (some 0)

/-- JavaScript `ToNumber` on primitives (`none` models `NaN`); strings
are handled for optional-sign decimal integers, which covers every
value the embedded code compares numerically. -/
def jsToNumber? : JsVal → Option Int
  | .undefined => none
  | .null => some 0
  | .bool b => some (if b then 1 else 0)
  | .num n => some n
  | .str s =>
    if s == "" then some 0
    else if strStartsWith s "-" then (digitsToNat? (strDrop s 1)).map (fun n => -(n : Int))
    else (digitsToNat? s).map (fun n => (n : Int))

/-- JavaScript comparison `v > 0` (false when `v` converts to NaN). -/
def jsGtZero (v : JsVal) : Bool :=
  match jsToNumber? v with
  | some n => decide (0 < n)
  | none => false

/-- JavaScript substring test `s.includes(pat)`. -/
def strContains (s pat : String) : Bool := listIsInfix pat.data s.data

/-- A row of a tabular result: either a positional tuple or a row
object.  These are the two row shapes of the bridge reply contract; the
model does not cover primitive-valued row entries. -/
inductive RowVal where
  | tuple (vs : List JsVal)
  | obj (fields : JsObj)
  deriving DecidableEq, Repr

/-- Key enumeration of a row value: object keys for a row object, the
canonical index strings for an array (JS arrays enumerate their indices
as string keys). -/
def RowVal.objKeys : RowVal → List String
  | .obj fields => jsKeys fields
  | .tuple vs => (List.range vs.length).map (fun i => toString i)

/-- Property read `row[k]` on a row value; array property access only
hits an element for a canonical index string. -/
def RowVal.getProp : RowVal → String → JsVal
  | .obj fields, k => jsGetD fields k
  | .tuple vs, k =>
    match digitsToNat? k with
    | some i => if toString i == k then vs.getD i .undefined else .undefined
    | none => .undefined

/-- QueryResult of `types.ts` (the `timestamp` and `rawJson` fields are
environment-dependent wall-clock/raw data and are not modelled). -/
structure QueryResult where
  columns : List String
  rows : List RowVal
  rowCount : Nat
  executionTimeMs : Nat
  error : Option String := none
  deriving DecidableEq, Repr

/-- JavaScript truthiness of `result.error` (an absent or empty error
string counts as no error). -/
def QueryResult.hasError (r : QueryResult) : Bool :=
  match r.error with
  | some s => s != ""
  | none => false

/-- Reply envelope from the bridge for `EXECUTE_REMOTE_QUERY` (optional
fields model absent JSON members). -/
structure RemoteReply where
  ok : Bool
  columns : Option (List String) := none
  rows : Option (List RowVal) := none
  rowCount : Option Nat := none
  executionTimeMs : Option Nat := none
  error : Option String := none
  deriving DecidableEq, Repr

/-- Outcome of one use of the external bridge channel, as observed by
`executeRemoteQuery`: the send function is absent, the call
throws/rejects with a message, the call resolves with a nullish value,
or the call resolves with a reply envelope. -/
inductive BridgeOutcome where
  | absent
  | fails (message : String)
  | nullReply
  | replies (response : RemoteReply)
  deriving DecidableEq, Repr

/-- JavaScript `v || d` for an optional number (0 is falsy). -/
def jsOrNat (v : Option Nat) (d : Nat) : Nat :=
  match v with
  | some n => if n == 0 then d else n
  | none => d

/-- JavaScript `v || d` for an optional string (the empty string is
falsy). -/
def jsOrString (v : Option String) (d : String) : String :=
  match v with
  | some s => if s == "" then d else s
  | none => d

/-- Empty QueryResult carrying an error message, as built by every
failure branch of `executeRemoteQuery`. -/
def errorResult (msg : String) : QueryResult :=
  { columns := [], rows := [], rowCount := 0, executionTimeMs := 0, error := some msg }

/-- MuulService.executeRemoteQuery of `services/muulService.ts`,
parameterized by the observed bridge outcome for this request.  The
function is total: every transport failure is converted into an error
QueryResult (the source wraps the bridge call in try/catch), never a
rejection.  Column inference: on a successful reply whose column list
is absent or empty and whose row array is non-empty, columns are read
from the first row's key enumeration and every row is projected into a
positional tuple (both row shapes pass the source's
`typeof rows[0] === 'object'` guard). -/
def executeRemoteQuery (bridge : BridgeOutcome) : QueryResult :=
  match bridge with
  | .absent => errorResult "Muul Browser bridge not detected."
  | .fails message => errorResult (jsOrString (some message) "Bridge communication failed")
  | .nullReply => errorResult "Unknown remote error"
  | .replies response =>
    if response.ok then
      let columns0 := response.columns.getD []
      let rows0 := response.rows.getD []
      if columns0.isEmpty && !rows0.isEmpty then
        let keys := ((rows0.head?).map RowVal.objKeys).getD []
        let rows := rows0.map (fun r => RowVal.tuple (keys.map (fun k => r.getProp k)))
        { columns := keys
          rows := rows
          rowCount := jsOrNat response.rowCount rows.length
          executionTimeMs := jsOrNat response.executionTimeMs 0 }
      else
        { columns := columns0
          rows := rows0
          rowCount := jsOrNat response.rowCount rows0.length
          executionTimeMs := jsOrNat response.executionTimeMs 0 }
    else
      errorResult (jsOrString response.error "Unknown remote error")

/-- DbDialect of `services/dialects/SqlDialects.ts`: the fixed dialect
enumeration. -/
inductive DbDialect where
  | postgres
  | mysql
  | sqlite
  | mssql
  | parquet
  | mongodb
  deriving DecidableEq, Repr

/-- Introspection statement templates of one `DialectDefinition`
(management statements and diagnostic insights are not needed by the
claims under verification). -/
structure DialectQueries where
  getTables : String
  getColumns : String → String
  getForeignKeys : String → String

/-- Introspection query templates of `DIALECT_CONFIG_STORE` in
`SqlDialects.ts`, transcribed per dialect (JS template interpolation is
rendered as string concatenation). -/
def dialectQueriesFor : DbDialect → DialectQueries
  | .postgres =>
    { getTables := "SELECT table_name AS \"name\" FROM information_schema.tables WHERE table_schema = 'public' AND table_type = 'BASE TABLE' ORDER BY table_name"
      getColumns := fun table =>
        "\n        SELECT \n          c.column_name AS \"name\", \n          c.data_type AS \"type\", \n          (SELECT COUNT(*) > 0 FROM information_schema.table_constraints tc \n           JOIN information_schema.key_column_usage kcu ON tc.constraint_name = kcu.constraint_name \n           WHERE tc.constraint_type = 'PRIMARY KEY' AND tc.table_name='" ++ table ++ "' AND kcu.column_name=c.column_name) as \"pk\" \n        FROM information_schema.columns c \n        WHERE c.table_name = '" ++ table ++ "' AND c.table_schema = 'public'\n        ORDER BY c.ordinal_position"
      getForeignKeys := fun table =>
        "\n        SELECT \n          kcu.column_name AS \"from\", \n          ccu.table_name AS \"table\", \n          ccu.column_name AS \"to\" \n        FROM information_schema.key_column_usage AS kcu \n        JOIN information_schema.table_constraints AS tc ON kcu.constraint_name = tc.constraint_name \n        JOIN information_schema.constraint_column_usage AS ccu ON ccu.constraint_name = tc.constraint_name \n        WHERE tc.constraint_type = 'FOREIGN KEY' AND kcu.table_name = '" ++ table ++ "' AND kcu.table_schema = 'public'" }
  | .mssql =>
    { getTables := "SELECT name AS \"name\" FROM sys.tables WHERE is_ms_shipped = 0 ORDER BY name"
      getColumns := fun table =>
        "\n        SELECT \n          c.name AS \"name\", \n          TYPE_NAME(c.system_type_id) as \"type\", \n          CONVERT(bit, i.is_primary_key) as \"pk\" \n        FROM sys.columns c \n        LEFT JOIN sys.index_columns ic ON ic.object_id = c.object_id AND ic.column_id = c.column_id \n        LEFT JOIN sys.indexes i ON i.object_id = c.object_id AND i.index_id = ic.index_id AND i.is_primary_key = 1 \n        WHERE c.object_id = OBJECT_ID('" ++ table ++ "')\n        ORDER BY c.column_id"
      getForeignKeys := fun table =>
        "\n        SELECT \n          cpa.name AS \"from\", \n          OBJECT_NAME(f.referenced_object_id) AS \"table\", \n          cpr.name AS \"to\" \n        FROM sys.foreign_keys AS f \n        INNER JOIN sys.foreign_key_columns AS fc ON f.object_id = fc.constraint_object_id \n        INNER JOIN sys.columns AS cpa ON fc.parent_object_id = cpa.object_id AND fc.parent_column_id = cpa.column_id \n        INNER JOIN sys.columns AS cpr ON fc.referenced_object_id = cpr.object_id AND fc.referenced_column_id = cpr.column_id \n        WHERE f.parent_object_id = OBJECT_ID('" ++ table ++ "')" }
  | .mysql =>
    { getTables := "SELECT table_name AS \"name\" FROM information_schema.tables WHERE table_schema = DATABASE()"
      getColumns := fun table => "DESCRIBE `" ++ table ++ "`"
      getForeignKeys := fun table =>
        "SELECT K.COLUMN_NAME AS 'from', K.REFERENCED_TABLE_NAME AS 'table', K.REFERENCED_COLUMN_NAME AS 'to' FROM INFORMATION_SCHEMA.KEY_COLUMN_USAGE AS K WHERE K.TABLE_SCHEMA = SCHEMA() AND K.TABLE_NAME = '" ++ table ++ "' AND K.REFERENCED_TABLE_NAME IS NOT NULL;" }
  | .sqlite =>
    { getTables := "SELECT name FROM sqlite_master WHERE type='table' AND name NOT LIKE 'sqlite_%' ORDER BY name"
      getColumns := fun table => "PRAGMA table_info(\"" ++ table ++ "\")"
      getForeignKeys := fun table => "PRAGMA foreign_key_list(\"" ++ table ++ "\")" }
  | .mongodb =>
    { getTables := ""
      getColumns := fun _ => ""
      getForeignKeys := fun _ => "" }
  | .parquet =>
    { getTables := ""
      getColumns := fun _ => ""
      getForeignKeys := fun _ => "" }

/-- Credential record for a remote connection (only the fields the
verified code reads). -/
structure CredentialEntry where
  id : String
  dbType : Option String
  deriving DecidableEq, Repr

/-- Dialect-tag normalization shared by `getRemoteDatabaseSchema` and
`getDialectForDb` in `muulService.ts`:
`credential.dbType?.toLowerCase() === 'sqlserver' ? 'mssql' :
 credential.dbType?.toLowerCase() || 'postgres'`. -/
def normalizeDbType (dbType : Option String) : String :=
  match dbType with
  | some s => if strLower s == "sqlserver" then "mssql"
              else if strLower s == "" then "postgres" else strLower s
  | none => "postgres"

/-- Key lookup `DialectRegistry[tag]`: the registry of `SqlDialects.ts`
has exactly the six dialect keys; any other tag finds no definition. -/
def dialectOfString? (s : String) : Option DbDialect :=
  if s == "postgres" then some .postgres
  else if s == "mssql" then some .mssql
  else if s == "mysql" then some .mysql
  else if s == "sqlite" then some .sqlite
  else if s == "mongodb" then some .mongodb
  else if s == "parquet" then some .parquet
  else none

/-- The SQL string built by the `switch` of `MuulService.explainQuery`
and handed to the normal execution path (for `mongodb` the source
returns early, delegating this string to `executeQuery`; the `default`
branch is only reachable for `parquet`). -/
def explainSqlFor (type : DbDialect) (sql : String) : String :=
  match type with
  | .postgres => "EXPLAIN (FORMAT JSON, ANALYZE) " ++ sql
  | .sqlite => "EXPLAIN QUERY PLAN " ++ sql
  | .mssql => "SET SHOWPLAN_XML ON;\nGO\n" ++ sql ++ "\nGO\nSET SHOWPLAN_XML OFF;"
  | .mysql => "EXPLAIN FORMAT=JSON " ++ sql
  | .mongodb => if strContains sql ".explain" then sql
                else sql ++ ".explain(\"executionStats\")"
  | .parquet => "EXPLAIN " ++ sql

/-- Reference of a foreign-key column to its target table and column
(`ColumnDefinition.references` of `types.ts`). -/
structure ColumnRef where
  table : JsVal
  column : JsVal
  deriving DecidableEq, Repr

/-- ColumnDefinition of `types.ts`; `name` and `type` are kept as raw
JS values because the tolerant remote readers can produce `undefined`
there. -/
structure ColumnDefinition where
  name : JsVal
  type : JsVal
  isPrimaryKey : Bool
  isForeignKey : Bool
  references : Option ColumnRef := none
  deriving DecidableEq, Repr

/-- TableDefinition of `types.ts`. -/
structure TableDefinition where
  name : JsVal
  columns : List ColumnDefinition
  deriving DecidableEq, Repr

/-- DbSchema of `types.ts`. -/
structure DbSchema where
  tables : List TableDefinition
  deriving DecidableEq, Repr

/-- The `toObjects` helper local to `getRemoteDatabaseSchema`: converts
a tabular result to row objects keyed by lower-cased column names
(`res.columns.forEach((col, i) => obj[col.toLowerCase()] = row[i])`). -/
def toObjects (res : QueryResult) : List JsObj :=
  res.rows.map (fun row =>
    res.columns.enum.foldl (fun obj p => jsSet obj (strLower p.2) (row.getProp (toString p.1))) [])

/-- JavaScript `(v || '').toUpperCase()`; a truthy non-string value
would raise a TypeError in the source and is outside the modelled
domain. -/
def jsUpperOrEmpty (v : JsVal) : String :=
  match (if v.truthy then v else .str "") with
  | .str s => strUpper s
  | _ => ""

/-- Dialect-specific primary-key detection applied to one column row in
`getRemoteDatabaseSchema`:
sqlite `colRow.pk > 0`; postgres/mssql `colRow.pk === 1 || colRow.pk
=== true`; mysql `(colRow.key || '').toUpperCase() === 'PRI'`; any
other dialect leaves `isPk` false. -/
def isPkFor (dbTypeStr : DbDialect) (colRow : JsObj) : Bool :=
  if dbTypeStr = .sqlite then jsGtZero (jsGetD colRow "pk")
  else if dbTypeStr = .postgres || dbTypeStr = .mssql then
    jsStrictEq (jsGetD colRow "pk") (.num 1) || jsStrictEq (jsGetD colRow "pk") (.bool true)
  else if dbTypeStr = .mysql then jsUpperOrEmpty (jsGetD colRow "key") == "PRI"
  else false

/-- One column built during remote schema discovery: column rows are
read tolerantly (`name`/`field`/`column_name`, `type`/`data_type`); a
foreign-key edge joins to the column by `fk.from === name` (foreign-key
rows degrade to the empty set when the foreign-key query errored). -/
def buildRemoteColumn (dbTypeStr : DbDialect) (fksData : List JsObj) (colRow : JsObj) :
    ColumnDefinition :=
  let name := jsOr (jsGetD colRow "name") (jsOr (jsGetD colRow "field") (jsGetD colRow "column_name"))
  let type := jsOr (jsGetD colRow "type") (jsGetD colRow "data_type")
  let isPk := isPkFor dbTypeStr colRow
  let fkDef := fksData.find? (fun fk => jsStrictEq (jsGetD fk "from") name)
  { name := name
    type := type
    isPrimaryKey := isPk
    isForeignKey := fkDef.isSome
    references := fkDef.map (fun fk => { table := jsGetD fk "table", column := jsGetD fk "to" }) }

/-- Column list built for one discovered table, mapping the column-row
reader over the converted column rows. -/
def buildRemoteColumns (dbTypeStr : DbDialect) (colsResult fksResult : QueryResult) :
    List ColumnDefinition :=
  let fksData := if fksResult.hasError then [] else toObjects fksResult
  (toObjects colsResult).map (buildRemoteColumn dbTypeStr fksData)

/-- Table names discovered by the dialect's list-tables query: rows are
converted to objects, a name is read from the `name` field or, when
that is falsy, from the first returned column by position, and falsy
names are filtered out. -/
def discoveredTableNames (exec : String → QueryResult) (dbTypeStr : DbDialect) : List JsVal :=
  let tablesResult := exec (dialectQueriesFor dbTypeStr).getTables
  let firstColName := tablesResult.columns.head?.map strLower
  ((toObjects tablesResult).map (fun row =>
    jsOr (jsGetD row "name")
      (match firstColName with
       | some c => if c == "" then .undefined else jsGetD row c
       | none => .undefined))).filter JsVal.truthy

/-- One iteration of the discovery loop of `getRemoteDatabaseSchema`
for one discovered table name: a failing list-columns query skips the
table (`continue`), otherwise the table is built with the columns read
from the list-columns and list-foreign-keys results. -/
def discoverTable (exec : String → QueryResult) (dbTypeStr : DbDialect) (tableName : JsVal) :
    Option TableDefinition :=
  let q := dialectQueriesFor dbTypeStr
  let tn := jsTemplateString tableName
  let colsResult := exec (q.getColumns tn)
  if colsResult.hasError then none
  else
    let fksResult := exec (q.getForeignKeys tn)
    some { name := tableName, columns := buildRemoteColumns dbTypeStr colsResult fksResult }

/-- Body of `getRemoteDatabaseSchema` after the dialect has been
resolved, parameterized by the remote execution path
`exec := sql => executeRemoteQuery(credential, sql)`.  A failing
list-tables query yields an empty schema; otherwise the discovery loop
runs over every discovered table name. -/
def discoverWithDialect (exec : String → QueryResult) (dbTypeStr : DbDialect) : DbSchema :=
  let tablesResult := exec (dialectQueriesFor dbTypeStr).getTables
  if tablesResult.hasError then { tables := [] }
  else
    { tables := (discoveredTableNames exec dbTypeStr).filterMap (discoverTable exec dbTypeStr) }

/-- MuulService.getRemoteDatabaseSchema: normalizes the credential's
declared engine name to a dialect tag, looks the tag up in the dialect
registry (an unknown tag returns an empty schema), and runs the
discovery loop over the remote execution path. -/
def getRemoteDatabaseSchema (exec : String → QueryResult) (credential : CredentialEntry) : DbSchema :=
  match dialectOfString? (normalizeDbType credential.dbType) with
  | none => { tables := [] }
  | some dbTypeStr => discoverWithDialect exec dbTypeStr

/-- One entry of the result array returned by sql.js `db.exec`:
column names and value rows (sql.js omits result objects for statements
that return no rows, so an empty array models "no rows"). -/
structure SqlExecResult where
  columns : List String
  values : List (List JsVal)
  deriving DecidableEq, Repr

/-- Array element read `row[i]`, yielding `undefined` past the end. -/
def listGetD (l : List JsVal) (i : Nat) : JsVal := l.getD i .undefined

/-- One edge row built from `PRAGMA foreign_key_list` output in
`SqliteEngine.getSchema` (`{from: row[3], table: row[2], to: row[4]}`;
the source's `from`/`table`/`to` keys are prefixed because `from` is a
reserved word here). -/
structure SqliteFkRow where
  fkFrom : JsVal
  fkTable : JsVal
  fkTo : JsVal
  deriving DecidableEq, Repr

namespace SqliteEngine

/-- One column built from a `PRAGMA table_info` row in
`SqliteEngine.getSchema`: `name = row[1]`, `type = row[2]`,
`isPk = row[5] > 0`, joined to a foreign-key edge by
`f.from === name`. -/
def columnOf (fks : List SqliteFkRow) (row : List JsVal) : ColumnDefinition :=
  let name := listGetD row 1
  let type := listGetD row 2
  let isPk := jsGtZero (listGetD row 5)
  let fkDef := fks.find? (fun f => jsStrictEq f.fkFrom name)
  ColumnDefinition.mk name type isPk fkDef.isSome
    (fkDef.map (fun f => ColumnRef.mk f.fkTable f.fkTo))

/-- Table-building loop of `SqliteEngine.getSchema`, threaded through
`Option` because an empty `PRAGMA table_info` result makes the source's
`colsRes[0].values` raise, which the surrounding try/catch turns into an
empty schema. -/
def buildTables (dbExec : String → List SqlExecResult) : List JsVal → Option (List TableDefinition)
  | [] => some []
  | tableName :: rest =>
    let tn := jsTemplateString tableName
    let colsRes := dbExec ("PRAGMA table_info(\"" ++ tn ++ "\")")
    let fkRes := dbExec ("PRAGMA foreign_key_list(\"" ++ tn ++ "\")")
    let fks := match fkRes.head? with
      | some r => r.values.map (fun row => SqliteFkRow.mk (listGetD row 3) (listGetD row 2) (listGetD row 4))
      | none => []
    match colsRes.head? with
    | none => none
    | some colsFirst =>
      (buildTables dbExec rest).map
        (fun tables => TableDefinition.mk tableName (colsFirst.values.map (columnOf fks)) :: tables)

/-- SqliteEngine.getSchema of `services/engines/SqliteEngine.ts`,
parameterized by the instance's `db.exec` function: introspects
`sqlite_master` for table names (flattening the value rows), then per
table reads `PRAGMA table_info` and `PRAGMA foreign_key_list`, joining
foreign-key edges to columns by name; any raised error degrades to an
empty schema. -/
def getSchema (dbExec : String → List SqlExecResult) : DbSchema :=
  let tablesRes := dbExec "SELECT name FROM sqlite_master WHERE type='table' AND name NOT LIKE 'sqlite_%'"
  if tablesRes.isEmpty then { tables := [] }
  else
    let tableNames := ((tablesRes.head?.map (fun r => r.values)).getD []).flatten
    match buildTables dbExec tableNames with
    | some tables => { tables := tables }
    | none => { tables := [] }

/-- SqliteEngine.executeQuery of `SqliteEngine.ts`, parameterized by
the instance's `db.exec` function: an empty result array yields an
empty QueryResult, otherwise the last result's columns and rows are
returned (`executionTimeMs` is wall-clock in the source and modelled
as 0; the instance-not-found throw and the try/catch around `db.exec`
are outside this model, which takes the exec function directly). -/
def executeQuery (dbExec : String → List SqlExecResult) (sql : String) : QueryResult :=
  let results := dbExec sql
  match results.getLast? with
  | none => { columns := [], rows := [], rowCount := 0, executionTimeMs := 0 }
  | some lastRes =>
    { columns := lastRes.columns
      rows := lastRes.values.map RowVal.tuple
      rowCount := lastRes.values.length
      executionTimeMs := 0 }

/-- Filename sanitization of `SqliteEngine.sanitizeTableName`: replace
every non-alphanumeric character by an underscore
(`/[^a-zA-Z0-9]/g` → `_`), then drop one trailing
`_csv`/`_json`/`_parquet` suffix case-insensitively
(`/_(csv|json|parquet)$/i` → empty). -/
def sanitizeTableName (filename : String) : String :=
  let replaced := String.mk (filename.data.map (fun c => if c.isAlphanum then c else '_'))
  if strEndsWith (strLower replaced) "_csv" then strDropRight replaced 4
  else if strEndsWith (strLower replaced) "_json" then strDropRight replaced 5
  else if strEndsWith (strLower replaced) "_parquet" then strDropRight replaced 8
  else replaced

end SqliteEngine

/-- Outcome of Papa.parse with `header: true`: the header field list
(absent for empty input) and the data rows as objects keyed by header
fields. -/
structure ParseResult where
  fields : Option (List String)
  data : List JsObj
  deriving Repr

/-- Dynamic typing of one delimited-text cell (Papa.parse
`dynamicTyping: true`): decimal integer strings become numbers,
`true`/`false` become booleans, anything else stays a string.
Fractional numbers are outside the modelled inputs. -/
def dynamicTypeCell (cell : String) : JsVal :=
  if cell == "true" then .bool true
  else if cell == "false" then .bool false
  else
    match (if strStartsWith cell "-" then (digitsToNat? (strDrop cell 1)).map (fun n => -(n : Int))
           else (digitsToNat? cell).map (fun n => (n : Int))) with
    | some n => .num n
    | none => .str cell

/-- Model of `Papa.parse(text, {header: true, dynamicTyping: true,
skipEmptyLines: true})` for simple comma-separated input without
quoting or escapes (Papa.parse is an external collaborator; this covers
the inputs the import-scenario claim exercises): empty lines are
skipped, the first line gives the field list, each further line becomes
an object pairing fields with dynamically typed cells. -/
def papaParse (text : String) : ParseResult :=
  let lines := (strSplitChar text (Char.ofNat 10)).filter (fun l => l != "")
  match lines with
  | [] => { fields := none, data := [] }
  | header :: rest =>
    let fields := strSplitChar header ','
    { fields := some fields
      data := rest.map (fun line => (fields.zip (strSplitChar line ',')).map (fun p => (p.1, dynamicTypeCell p.2))) }

/-- One table of the modelled embedded sql.js database: created by the
delimited-text import, so every column has declared type TEXT. -/
structure SqlTable where
  name : String
  cols : List String
  rows : List (List JsVal)
  deriving DecidableEq, Repr

/-- Modelled in-memory sql.js database instance. -/
structure SqlDb where
  tables : List SqlTable
  deriving DecidableEq, Repr

/-- JavaScript `v ?? null` on an optional property read. -/
def jsNullish (v : Option JsVal) : JsVal :=
  match v with
  | none => .null
  | some .undefined => .null
  | some .null => .null
  | some w => w

/-- SQLite TEXT column affinity applied when a bound value is stored
into a TEXT column (numbers are converted to their text rendering;
this is sql.js/SQLite behavior, external to the repository). -/
def textAffinity : JsVal → JsVal
  | .num n => .str (toString n)
  | .bool b => .str (if b then "1" else "0")
  | .str s => .str s
  | .null => .null
  | .undefined => .null

namespace SqliteEngine

/-- SqliteEngine.importDataToTable: creates a table whose columns are
the parsed fields, all declared TEXT, and bulk-inserts each data row by
reading `row[f] ?? null` per field inside one transaction (the
transaction itself has no observable effect in the model). -/
def importDataToTable (db : SqlDb) (tableName : String) (fields : List String) (data : List JsObj) : SqlDb :=
  let rows := data.map (fun row => fields.map (fun f => textAffinity (jsNullish (jsGet row f))))
  { tables := db.tables ++ [{ name := tableName, cols := fields, rows := rows }] }

/-- SqliteEngine.createDatabaseFromFile restricted to the delimited-text
path: a `.csv` filename is parsed and, when a header and at least one
data row exist, imported into a fresh database under the sanitized
table name; otherwise a fresh empty database results.  The
`.sqlite`/`.db` branch loads a binary container through sql.js and is
outside this model; every branch reports engine type `sqlite`. -/
def createDatabaseFromFile (fileName : String) (text : String) : SqlDb × String :=
  if strEndsWith fileName ".csv" then
    let parseResult := papaParse text
    let tableName := sanitizeTableName fileName
    match parseResult.fields with
    | some fields =>
      if parseResult.data.length > 0 then
        (importDataToTable { tables := [] } tableName fields parseResult.data, "sqlite")
      else ({ tables := [] }, "sqlite")
    | none => ({ tables := [] }, "sqlite")
  else ({ tables := [] }, "sqlite")

end SqliteEngine

/-- Model of sql.js `db.exec` for a database created by the
delimited-text import: answers the exact catalog queries
`SqliteEngine.getSchema` issues (the `sqlite_master` table list,
`PRAGMA table_info`, `PRAGMA foreign_key_list` — imported tables have
pk = 0 on every column and no foreign keys) and plain
`SELECT * FROM "t"` statements; statements returning no rows yield an
empty result array, as sql.js does. -/
def dbExecOf (db : SqlDb) (sql : String) : List SqlExecResult :=
  if sql == "SELECT name FROM sqlite_master WHERE type='table' AND name NOT LIKE 'sqlite_%'" then
    if db.tables.isEmpty then []
    else [{ columns := ["name"], values := db.tables.map (fun t => [.str t.name]) }]
  else
    match db.tables.find? (fun t => sql == "PRAGMA table_info(\"" ++ t.name ++ "\")") with
    | some t =>
      [{ columns := ["cid", "name", "type", "notnull", "dflt_value", "pk"]
         values := t.cols.enum.map (fun p => [.num p.1, .str p.2, .str "TEXT", .num 0, .null, .num 0]) }]
    | none =>
      match db.tables.find? (fun t => sql == "PRAGMA foreign_key_list(\"" ++ t.name ++ "\")") with
      | some _ => []
      | none =>
        match db.tables.find? (fun t => sql == "SELECT * FROM \"" ++ t.name ++ "\"") with
        | some t => if t.rows.isEmpty then [] else [{ columns := t.cols, values := t.rows }]
        | none => []

/-- Value inside a simulated MongoDB document: a primitive, a one-level
nested object of primitives, or an array of primitives — the three
shapes occurring in `MongoEngine.getMockDocuments`. -/
inductive MVal where
  | prim (v : JsVal)
  | obj (fields : List (String × JsVal))
  | arr (elems : List JsVal)
  deriving DecidableEq, Repr

/-- A simulated MongoDB document. -/
abbrev MDoc := List (String × MVal)

namespace MongoEngine

/-- MongoEngine.getMockDocuments: the canned collections (`users` has
its own documents; every other collection gets the generic pair with
the collection name echoed back). -/
def getMockDocuments (collection : String) : List MDoc :=
  if collection == "users" then
    [ [("_id", .prim (.str "64a1b2c3")), ("username", .prim (.str "jdoe")),
       ("profile", .obj [("age", .num 30), ("city", .str "NY")]),
       ("tags", .arr [.str "dev", .str "admin"])],
      [("_id", .prim (.str "64a1b2c4")), ("username", .prim (.str "asmith")),
       ("profile", .obj [("age", .num 25), ("city", .str "SF")]),
       ("tags", .arr [.str "design"])],
      [("_id", .prim (.str "64a1b2c5")), ("username", .prim (.str "bwong")),
       ("profile", .obj [("age", .num 34), ("city", .str "London")]),
       ("tags", .arr [.str "hr"])] ]
  else
    [ [("_id", .prim (.str "99x88y77")), ("collection", .prim (.str collection)),
       ("status", .prim (.str "processed")), ("metadata", .obj [("source", .str "web")])],
      [("_id", .prim (.str "99x88y78")), ("collection", .prim (.str collection)),
       ("status", .prim (.str "pending")), ("metadata", .obj [("source", .str "api")])] ]

/-- Set insertion in first-insertion order (`Set.add` in the source). -/
def addKey (keys : List String) (k : String) : List String :=
  if keys.contains k then keys else keys ++ [k]

/-- MongoEngine.extractColumns: collects document keys in order,
flattening one level of nested (non-array) object keys into dotted
column names. -/
def extractColumns (docs : List MDoc) : List String :=
  docs.foldl (fun keys doc =>
    doc.foldl (fun keys p =>
      match p.2 with
      | .obj fields => fields.foldl (fun keys q => addKey keys (p.1 ++ "." ++ q.1)) keys
      | _ => addKey keys p.1) keys) []

/-- MongoEngine.getSchema: one table per canned collection, columns
extracted from the first sample document, all typed `bson`; `_id` is
the primary key, and a column is flagged as a foreign key by the
`_id`-suffix naming convention (no `references` field is ever set). -/
def getSchema : DbSchema :=
  { tables := ["users", "orders", "logs", "settings"].map (fun name =>
      let sampleDocs := (getMockDocuments name).take 1
      let cols := extractColumns sampleDocs
      { name := .str name
        columns := cols.map (fun c =>
          { name := .str c
            type := .str "bson"
            isPrimaryKey := c == "_id"
            isForeignKey := strEndsWith c "_id" && c != "_id"
            references := none }) }) }

end MongoEngine

/-- PendingJoin of `JoinBuilderModal.tsx` as built by `handleEditorDrop`
(the source leaves `isHeuristic` undefined except in the tier-2 branch,
which is falsy and modelled as the default `false`). -/
structure PendingJoin where
  newTable : TableDefinition
  existingTable : String
  joinCondition : String
  isHeuristic : Bool := false
  deriving DecidableEq, Repr

/-- Lookup `activeSchema.tables.find(t => t.name === name)` for a
table-name string scanned out of the SQL text. -/
def findTableDef (schema : DbSchema) (name : String) : Option TableDefinition :=
  schema.tables.find? (fun t => jsStrictEq t.name (.str name))

/-- Lookup of the already-present table's definition in the schema
(`schema.tables.find(t => t.name === existing)`). -/
def existingDefOf (schema : DbSchema) (existing : String) : Option TableDefinition :=
  schema.tables.find? (fun t => jsStrictEq t.name (.str existing))

/-- Lookup `columns.find(c => c.isForeignKey && c.references?.table ===
target)` (an absent reference makes the optional chain yield
`undefined`, which is never strictly equal to a string). -/
def fkMatch (tableDef : TableDefinition) (target : String) : Option ColumnDefinition :=
  tableDef.columns.find? (fun c => c.isForeignKey &&
    (match c.references with
     | some r => jsStrictEq r.table (.str target)
     | none => false))

/-- The tier-8 reverse lookup
`existingDef?.columns.find(c => c.isForeignKey && c.references?.table
=== newTable)` (`none` when the existing table is not in the
schema). -/
def revFkOf (schema : DbSchema) (newTable existing : String) : Option ColumnDefinition :=
  match existingDefOf schema existing with
  | some ed => fkMatch ed newTable
  | none => none

/-- Lower-casing of a column name as the heuristic branch does
(`c.name.toLowerCase()`); a non-string name would raise a TypeError in
the source and is outside the modelled domain. -/
def jsLowerString (v : JsVal) : String :=
  match v with
  | .str s => strLower s
  | _ => ""

/-- The tier-2 `intersect` list of `handleEditorDrop`: lower-cased
column names of the new table that also occur (case-insensitively)
among the existing table's columns and textually contain `id` or `key`;
when the existing table is not in the schema the optional chain makes
the filter predicate undefined, hence falsy, so the list is empty. -/
def sharedKeyColumns (tableDef : TableDefinition) (existingDef : Option TableDefinition) : List String :=
  match existingDef with
  | none => []
  | some ed =>
    (tableDef.columns.map (fun c => jsLowerString c.name)).filter (fun c =>
      ((ed.columns.map (fun ec => jsLowerString ec.name)).contains c) &&
        (strContains c "id" || strContains c "key"))

/-- Join condition string of the tier-10 branch:
`"new"."fkCol" = "existing"."referencedCol"`. -/
def joinCondFk (newTable : String) (fk : ColumnDefinition) (existing : String) : String :=
  "\"" ++ newTable ++ "\".\"" ++ jsTemplateString fk.name ++ "\" = \"" ++ existing ++ "\".\"" ++
    jsTemplateString ((fk.references.map (fun r => r.column)).getD .undefined) ++ "\""

/-- Join condition string of the tier-8 branch (direction reversed):
`"existing"."fkCol" = "new"."referencedCol"`. -/
def joinCondRevFk (existing : String) (revFk : ColumnDefinition) (newTable : String) : String :=
  "\"" ++ existing ++ "\".\"" ++ jsTemplateString revFk.name ++ "\" = \"" ++ newTable ++ "\".\"" ++
    jsTemplateString ((revFk.references.map (fun r => r.column)).getD .undefined) ++ "\""

/-- Join condition string of the tier-2 branch, equating the first
shared column on both sides. -/
def joinCondShared (newTable : String) (c0 : String) (existing : String) : String :=
  "\"" ++ newTable ++ "\".\"" ++ c0 ++ "\" = \"" ++ existing ++ "\".\"" ++ c0 ++ "\""

/-- One iteration of the `for (const existing of existingTablesInSql)`
loop in `handleEditorDrop`, updating the `(bestScore, bestJoin)`
accumulator: the tier-10 check is unguarded, the tier-8 check runs only
while `bestScore < 10`, and the tier-2 check only while
`bestScore < 8`. -/
def scanStep (schema : DbSchema) (tableDef : TableDefinition) (newTable : String)
    (acc : Int × Option PendingJoin) (existing : String) : Int × Option PendingJoin :=
  let acc1 : Int × Option PendingJoin :=
    match fkMatch tableDef existing with
    | some fk => (10, some { newTable := tableDef, existingTable := existing, joinCondition := joinCondFk newTable fk existing })
    | none => acc
  let acc2 : Int × Option PendingJoin :=
    if acc1.1 < 10 then
      match revFkOf schema newTable existing with
      | some revFk => (8, some { newTable := tableDef, existingTable := existing, joinCondition := joinCondRevFk existing revFk newTable })
      | none => acc1
    else acc1
  if acc2.1 < 8 then
    match (sharedKeyColumns tableDef (existingDefOf schema existing)).head? with
    | some c0 => (2, some { newTable := tableDef, existingTable := existing, joinCondition := joinCondShared newTable c0 existing, isHeuristic := true })
    | none => acc2
  else acc2

/-- Best join proposed by `handleEditorDrop` for one dragged-in table:
the scan over the already-present tables starting from
`bestScore = -1, bestJoin = null` (a dragged table absent from the
schema is skipped by the source and yields no join). -/
def bestJoinFor (schema : DbSchema) (newTable : String) (existingTables : List String) :
    Option PendingJoin :=
  match findTableDef schema newTable with
  | none => none
  | some tableDef => (existingTables.foldl (scanStep schema tableDef newTable) (-1, none)).2

/-- Candidate tier and join of one `(new table, existing table)` pair,
read off the branch structure of `scanStep`: the highest tier the pair
qualifies for, with the join built in that branch; `none` when no tier
applies. -/
def pairCandidate (schema : DbSchema) (tableDef : TableDefinition) (newTable existing : String) :
    Option (Int × PendingJoin) :=
  match fkMatch tableDef existing with
  | some fk => some (10, { newTable := tableDef, existingTable := existing, joinCondition := joinCondFk newTable fk existing })
  | none =>
    match revFkOf schema newTable existing with
    | some revFk => some (8, { newTable := tableDef, existingTable := existing, joinCondition := joinCondRevFk existing revFk newTable })
    | none =>
      match (sharedKeyColumns tableDef (existingDefOf schema existing)).head? with
      | some c0 => some (2, { newTable := tableDef, existingTable := existing, joinCondition := joinCondShared newTable c0 existing, isHeuristic := true })
      | none => none

/-- Score tier of one pair (−1 when the pair yields no candidate,
matching the initial `bestScore`). -/
def pairTier (schema : DbSchema) (tableDef : TableDefinition) (newTable existing : String) : Int :=
  ((pairCandidate schema tableDef newTable existing).map (fun p => p.1)).getD (-1)

/-- Maximal tier over a scan-order list of existing tables. -/
def maxTierOver (schema : DbSchema) (tableDef : TableDefinition) (newTable : String)
    (l : List String) : Int :=
  (l.map (pairTier schema tableDef newTable)).foldl max (-1)

/-- Join selected by the scan according to the last-wins tie-break: the
candidate of the last existing table attaining the maximal tier. -/
def lastBestJoin (schema : DbSchema) (tableDef : TableDefinition) (newTable : String)
    (l : List String) : Option PendingJoin :=
  ((l.filter (fun e => pairTier schema tableDef newTable e == maxTierOver schema tableDef newTable l)).getLast?).bind
    (fun e => (pairCandidate schema tableDef newTable e).map (fun p => p.2))

/-- Fixture: a remote execution path that answers every query with the
same successful one-table result (used to instantiate universally
quantified theorems at a concrete input). -/
def execFixture : String → QueryResult := fun _ =>
  { columns := ["name"], rows := [RowVal.tuple [.str "t1"]], rowCount := 1, executionTimeMs := 0 }

/-- Fixture: the reply `{ok: true, rows: [{a: 1, b: "x"}]}` of the
specification's column-inference round-trip example. -/
def c3Reply : RemoteReply :=
  { ok := true, rows := some [RowVal.obj [("a", .num 1), ("b", .str "x")]] }

/-- Fixture: a remote execution path over the sqlite dialect where
table `a`'s list-columns query fails and table `b`'s list-foreign-keys
query fails. -/
def execPartial : String → QueryResult := fun sql =>
  if sql == (dialectQueriesFor .sqlite).getTables then
    { columns := ["name"], rows := [RowVal.tuple [.str "a"], RowVal.tuple [.str "b"]],
      rowCount := 2, executionTimeMs := 0 }
  else if sql == "PRAGMA table_info(\"a\")" then errorResult "columns query failed"
  else if sql == "PRAGMA table_info(\"b\")" then
    { columns := ["name", "type", "pk"], rows := [RowVal.tuple [.str "id", .str "INTEGER", .num 1]],
      rowCount := 1, executionTimeMs := 0 }
  else if sql == "PRAGMA foreign_key_list(\"b\")" then errorResult "foreign keys query failed"
  else { columns := [], rows := [], rowCount := 0, executionTimeMs := 0 }

/-- Fixture: a credential declaring the `sqlite` engine. -/
def credSqlite : CredentialEntry := { id := "c-sqlite", dbType := some "sqlite" }

/-- Fixture: a credential declaring an engine name unknown to the
dialect registry. -/
def credOracle : CredentialEntry := { id := "c-oracle", dbType := some "oracle" }

/-- Fixture: a dragged-in table `A` with declared foreign keys to both
`T1` and `T2`. -/
def cexTableA : TableDefinition :=
  { name := .str "A"
    columns :=
      [ { name := .str "a1", type := .str "int", isPrimaryKey := false, isForeignKey := true,
          references := some { table := .str "T1", column := .str "id" } },
        { name := .str "a2", type := .str "int", isPrimaryKey := false, isForeignKey := true,
          references := some { table := .str "T2", column := .str "id" } } ] }

/-- Fixture: a schema where the new table `A` has a tier-10 candidate
against each of the existing tables `T1` and `T2`. -/
def cexSchema : DbSchema :=
  { tables :=
      [ cexTableA,
        { name := .str "T1"
          columns := [{ name := .str "id", type := .str "int", isPrimaryKey := true, isForeignKey := false }] },
        { name := .str "T2"
          columns := [{ name := .str "id", type := .str "int", isPrimaryKey := true, isForeignKey := false }] } ] }

/-- Fixture: the `_id` column as produced by the document-store
engine's schema. -/
def mongoIdColumn : ColumnDefinition :=
  { name := .str "_id", type := .str "bson", isPrimaryKey := true, isForeignKey := false }

/-- Fixture: the `users` table as produced by the document-store
engine's schema. -/
def mongoUsersTable : TableDefinition :=
  { name := .str "users"
    columns :=
      [ mongoIdColumn,
        { name := .str "username", type := .str "bson", isPrimaryKey := false, isForeignKey := false },
        { name := .str "profile.age", type := .str "bson", isPrimaryKey := false, isForeignKey := false },
        { name := .str "profile.city", type := .str "bson", isPrimaryKey := false, isForeignKey := false },
        { name := .str "tags", type := .str "bson", isPrimaryKey := false, isForeignKey := false } ] }

/-- Fixture: the embedded instance created by importing the file
`data.csv` whose header line is `id,name` and whose single data row is
`1,Alice`. -/
def c8Db : SqlDb := (SqliteEngine.createDatabaseFromFile "data.csv" "id,name\n1,Alice").1

/-! Theorems. -/

/-- The JS `||`-defaulting of an error message never produces an empty
string when the default is non-empty. -/
theorem jsOrString_ne_empty (v : Option String) (d : String) (hd : d ≠ "") :
    jsOrString v d ≠ "" := by
  unfold jsOrString
  cases v with
  | none => exact hd
  | some s =>
    by_cases h : s = ""
    · simp [h, hd]
    · simp [h]

/-- C10: for a connection whose resolved dialect is sqlite,
`explainQuery` rewrites the input SQL `SELECT 1` into exactly the
string `EXPLAIN QUERY PLAN SELECT 1` before delegating it to the
normal execution path. -/
theorem explainSqlFor_sqlite_select1 :
    explainSqlFor .sqlite "SELECT 1" = "EXPLAIN QUERY PLAN SELECT 1" := rfl

/-- C3: a successful bridge reply carrying no (or an empty) column list
and a non-empty array of row objects has its columns inferred from the
first row object's keys in enumeration order, and every row object is
projected into a positional tuple by reading each inferred column's
key. -/
theorem executeRemoteQuery_infers_columns (response : RemoteReply) (fields : JsObj)
    (rest : List RowVal)
    (hok : response.ok = true)
    (hcols : response.columns = none ∨ response.columns = some [])
    (hrows : response.rows = some (RowVal.obj fields :: rest)) :
    (executeRemoteQuery (.replies response)).columns = jsKeys fields ∧
    (executeRemoteQuery (.replies response)).rows =
      (RowVal.obj fields :: rest).map
        (fun r => RowVal.tuple ((jsKeys fields).map (fun k => r.getProp k))) := by
  rcases hcols with h | h <;>
    simp [executeRemoteQuery, h, hok, hrows, RowVal.objKeys]

/-- C3 witness: the reply `{ok: true, rows: [{a: 1, b: "x"}]}` with no
columns field yields columns `["a", "b"]` and rows `[[1, "x"]]`. -/
theorem executeRemoteQuery_infers_columns_witness :
    (executeRemoteQuery (.replies c3Reply)).columns = ["a", "b"] ∧
    (executeRemoteQuery (.replies c3Reply)).rows = [RowVal.tuple [.num 1, .str "x"]] := by
  have h := executeRemoteQuery_infers_columns c3Reply [("a", .num 1), ("b", .str "x")] []
    rfl (Or.inl rfl) rfl
  exact ⟨h.1.trans (by decide), h.2.trans (by decide)⟩

/-- C4: whenever the bridge send function is absent, the bridge call
throws or rejects, the reply is nullish, or the reply's ok flag is not
true, `executeRemoteQuery` resolves with a QueryResult whose error
string is set (and non-empty) and whose columns and rows are empty with
rowCount 0; the embedding is a total function, so no rejection escapes
to the caller. -/
theorem executeRemoteQuery_failure_shape (bridge : BridgeOutcome)
    (h : bridge = .absent ∨ (∃ m, bridge = .fails m) ∨ bridge = .nullReply ∨
         (∃ response, bridge = .replies response ∧ response.ok = false)) :
    ∃ s, (executeRemoteQuery bridge).error = some s ∧ s ≠ "" ∧
      (executeRemoteQuery bridge).columns = [] ∧
      (executeRemoteQuery bridge).rows = [] ∧
      (executeRemoteQuery bridge).rowCount = 0 := by
  rcases h with rfl | ⟨m, rfl⟩ | rfl | ⟨response, rfl, hok⟩
  · exact ⟨_, rfl, by decide, rfl, rfl, rfl⟩
  · exact ⟨jsOrString (some m) "Bridge communication failed", rfl,
      jsOrString_ne_empty _ _ (by decide), rfl, rfl, rfl⟩
  · exact ⟨_, rfl, by decide, rfl, rfl, rfl⟩
  · refine ⟨jsOrString response.error "Unknown remote error", ?_,
      jsOrString_ne_empty _ _ (by decide), ?_, ?_, ?_⟩ <;>
      simp [executeRemoteQuery, hok, errorResult]

/-- C4 witness: the missing-bridge condition at a concrete call. -/
theorem executeRemoteQuery_failure_shape_witness :
    ∃ s, (executeRemoteQuery .absent).error = some s ∧ s ≠ "" ∧
      (executeRemoteQuery .absent).columns = [] ∧
      (executeRemoteQuery .absent).rows = [] ∧
      (executeRemoteQuery .absent).rowCount = 0 :=
  executeRemoteQuery_failure_shape .absent (Or.inl rfl)

/-- C2 counterexample: for the credential with declared engine name
`oracle` — a value unrecognized by the dialect registry — the tag does
not resolve to `postgres`; schema discovery returns an empty schema
instead of proceeding with the postgres introspection templates (which,
over the same execution path, would discover a table). -/
theorem getRemoteDatabaseSchema_unrecognized_not_postgres :
    normalizeDbType credOracle.dbType = "oracle" ∧
    normalizeDbType credOracle.dbType ≠ "postgres" ∧
    getRemoteDatabaseSchema execFixture credOracle = { tables := [] } ∧
    discoverWithDialect execFixture .postgres ≠ { tables := [] } := by decide

/-- C2 amended: a `sqlserver` spelling (case-insensitive) normalizes to
the `mssql` tag; an absent or empty `dbType` resolves to `postgres`, so
schema discovery proceeds with the postgres introspection templates;
any other engine name is kept lower-cased as the tag, and when the
dialect registry has no entry for it, schema discovery returns an empty
schema. -/
theorem getRemoteDatabaseSchema_dialect_normalization (credential : CredentialEntry)
    (exec : String → QueryResult) :
    ((∃ s, credential.dbType = some s ∧ strLower s = "sqlserver") →
      normalizeDbType credential.dbType = "mssql") ∧
    ((credential.dbType = none ∨ credential.dbType = some "") →
      normalizeDbType credential.dbType = "postgres" ∧
      getRemoteDatabaseSchema exec credential = discoverWithDialect exec .postgres) ∧
    (∀ s, credential.dbType = some s → strLower s ≠ "sqlserver" → strLower s ≠ "" →
      normalizeDbType credential.dbType = strLower s ∧
      (dialectOfString? (strLower s) = none →
        getRemoteDatabaseSchema exec credential = { tables := [] })) := by
  refine ⟨?_, ?_, ?_⟩
  · rintro ⟨s, hs, hl⟩
    simp [normalizeDbType, hs, hl]
  · rintro (h | h) <;>
    · have hp : normalizeDbType credential.dbType = "postgres" := by
        rw [h]; decide
      have hd : dialectOfString? (normalizeDbType credential.dbType) = some .postgres := by
        rw [hp]; decide
      exact ⟨hp, by simp [getRemoteDatabaseSchema, hd]⟩
  · intro s hs h1 h2
    have hn : normalizeDbType credential.dbType = strLower s := by
      simp [normalizeDbType, hs, h1, h2]
    refine ⟨hn, fun hd => ?_⟩
    simp [getRemoteDatabaseSchema, hn, hd]

/-- C2 witness: the amended behavior at the concrete unrecognized
engine name `oracle`. -/
theorem getRemoteDatabaseSchema_dialect_normalization_witness :
    normalizeDbType credOracle.dbType = "oracle" ∧
    getRemoteDatabaseSchema execFixture credOracle = { tables := [] } := by
  have h := (getRemoteDatabaseSchema_dialect_normalization credOracle execFixture).2.2
    "oracle" rfl (by decide) (by decide)
  exact ⟨h.1.trans (by decide), h.2 (by decide)⟩

/-- Strict-equality disjunction of the postgres/mssql primary-key
test. -/
theorem jsStrictEq_pk_iff (v : JsVal) :
    (jsStrictEq v (.num 1) || jsStrictEq v (.bool true)) = true ↔
      (v = .num 1 ∨ v = .bool true) := by
  cases v <;> simp [jsStrictEq]

/-- The mysql key upper-casing collapses to `strUpper` on strings. -/
theorem jsUpperOrEmpty_str (s : String) : jsUpperOrEmpty (.str s) = strUpper s := by
  by_cases h : s = ""
  · subst h; decide
  · simp [jsUpperOrEmpty, JsVal.truthy, h]

/-- C5: primary-key detection is decided exactly per dialect — sqlite
true iff a numeric pk field is positive; postgres and mssql true iff
the pk field is strictly the number 1 or the boolean true; mysql true
iff the key field upper-cases to `PRI`; and for every dialect, a column
row with no key field whose pk is 0, false, or absent yields
isPrimaryKey false. -/
theorem isPkFor_rules (colRow : JsObj) :
    (∀ n : Int, jsGetD colRow "pk" = .num n → (isPkFor .sqlite colRow = true ↔ 0 < n)) ∧
    (isPkFor .postgres colRow = true ↔
      (jsGetD colRow "pk" = .num 1 ∨ jsGetD colRow "pk" = .bool true)) ∧
    (isPkFor .mssql colRow = true ↔
      (jsGetD colRow "pk" = .num 1 ∨ jsGetD colRow "pk" = .bool true)) ∧
    (∀ s : String, jsGetD colRow "key" = .str s →
      (isPkFor .mysql colRow = true ↔ strUpper s = "PRI")) ∧
    (∀ d : DbDialect, jsGetD colRow "key" = .undefined →
      (jsGetD colRow "pk" = .num 0 ∨ jsGetD colRow "pk" = .bool false ∨
        jsGetD colRow "pk" = .undefined) →
      isPkFor d colRow = false) := by
  refine ⟨?_, ?_, ?_, ?_, ?_⟩
  · intro n hn
    simp [isPkFor, hn, jsGtZero, jsToNumber?]
  · simpa [isPkFor] using jsStrictEq_pk_iff (jsGetD colRow "pk")
  · simpa [isPkFor] using jsStrictEq_pk_iff (jsGetD colRow "pk")
  · intro s hs
    simp [isPkFor, hs, jsUpperOrEmpty_str]
  · intro d hkey hpk
    cases d
    · rcases hpk with h | h | h <;> simp [isPkFor, h, jsStrictEq]
    · rw [isPkFor, if_neg (by decide), if_neg (by decide), if_pos rfl, hkey]
      decide
    · rcases hpk with h | h | h <;> simp [isPkFor, h, jsGtZero, jsToNumber?]
    · rcases hpk with h | h | h <;> simp [isPkFor, h, jsStrictEq]
    · simp [isPkFor]
    · simp [isPkFor]

/-- C5 witness: the specification's concrete rows — mysql
`{field: "id", key: "PRI"}` and sqlite `{name: "id", pk: 1}` are
detected as primary keys. -/
theorem isPkFor_rules_witness :
    isPkFor .mysql [("field", .str "id"), ("key", .str "PRI")] = true ∧
    isPkFor .sqlite [("name", .str "id"), ("pk", .num 1)] = true := by
  constructor
  · exact ((isPkFor_rules [("field", .str "id"), ("key", .str "PRI")]).2.2.2.1 "PRI"
      (by decide)).2 (by decide)
  · exact ((isPkFor_rules [("name", .str "id"), ("pk", .num 1)]).1 1 (by decide)).2 (by decide)

/-- C8: importing a `.csv` file with header `id,name` and single data
row `1,Alice` produces an instance whose schema has exactly one table,
named by sanitizing the filename (`data.csv` → `data`), whose two
columns are TEXT-typed and neither primary nor foreign keys; executing
`SELECT * FROM "data"` on the instance returns exactly the one row
`["1", "Alice"]` (the numeric cell 1 is stored through TEXT affinity as
the string "1"). -/
theorem csv_import_end_to_end :
    SqliteEngine.sanitizeTableName "data.csv" = "data" ∧
    SqliteEngine.getSchema (dbExecOf c8Db) =
      { tables := [{ name := .str "data", columns := [{ name := .str "id", type := .str "TEXT", isPrimaryKey := false, isForeignKey := false }, { name := .str "name", type := .str "TEXT", isPrimaryKey := false, isForeignKey := false }] }] } ∧
    (SqliteEngine.executeQuery (dbExecOf c8Db) "SELECT * FROM \"data\"").rows
      = [RowVal.tuple [.str "1", .str "Alice"]] ∧
    (SqliteEngine.executeQuery (dbExecOf c8Db) "SELECT * FROM \"data\"").rowCount = 1 := by
  decide


/-- Every column built by the remote column reader has its foreign-key
flag equal to the presence of its reference. -/
theorem buildRemoteColumn_fk_iff (d : DbDialect) (fksData : List JsObj) (colRow : JsObj) :
    (buildRemoteColumn d fksData colRow).isForeignKey = true ↔
      (buildRemoteColumn d fksData colRow).references.isSome = true := by
  unfold buildRemoteColumn
  simp [Option.isSome_map']

/-- Every column built from a `PRAGMA table_info` row has its
foreign-key flag equal to the presence of its reference. -/
theorem sqlite_columnOf_fk_iff (fks : List SqliteFkRow) (row : List JsVal) :
    (SqliteEngine.columnOf fks row).isForeignKey = true ↔
      (SqliteEngine.columnOf fks row).references.isSome = true := by
  unfold SqliteEngine.columnOf
  simp [Option.isSome_map']

/-- Tables produced by the embedded engine's table loop only carry
columns whose foreign-key flag matches the presence of a reference. -/
theorem sqliteBuildTables_fk_iff (dbExec : String → List SqlExecResult)
    (names : List JsVal) (tables : List TableDefinition)
    (h : SqliteEngine.buildTables dbExec names = some tables) :
    ∀ t ∈ tables, ∀ c ∈ t.columns,
      c.isForeignKey = true ↔ c.references.isSome = true := by
  induction names generalizing tables with
  | nil =>
    rw [SqliteEngine.buildTables] at h
    cases h
    intro t ht
    cases ht
  | cons n rest ih =>
    rw [SqliteEngine.buildTables] at h
    split at h
    · cases h
    · rw [Option.map_eq_some'] at h
      obtain ⟨restTables, hrest, htab⟩ := h
      subst htab
      intro t ht c hc
      rcases List.mem_cons.mp ht with rfl | htr
      · rw [List.mem_map] at hc
        obtain ⟨row, -, rfl⟩ := hc
        exact sqlite_columnOf_fk_iff _ row
      · exact ih restTables hrest t htr c hc

/-- C7: for every TableDefinition produced by remote schema discovery,
by the embedded engine's introspection, or by the document-store
engine's schema, a column has isForeignKey true if and only if its
references field is present. -/
theorem isForeignKey_iff_references :
    (∀ (exec : String → QueryResult) (credential : CredentialEntry),
      ∀ t ∈ (getRemoteDatabaseSchema exec credential).tables, ∀ c ∈ t.columns,
        (c.isForeignKey = true ↔ c.references.isSome = true)) ∧
    (∀ (dbExec : String → List SqlExecResult),
      ∀ t ∈ (SqliteEngine.getSchema dbExec).tables, ∀ c ∈ t.columns,
        (c.isForeignKey = true ↔ c.references.isSome = true)) ∧
    (∀ t ∈ MongoEngine.getSchema.tables, ∀ c ∈ t.columns,
        (c.isForeignKey = true ↔ c.references.isSome = true)) := by
  refine ⟨?_, ?_, ?_⟩
  · intro exec credential t ht c hc
    rw [getRemoteDatabaseSchema] at ht
    split at ht
    · cases ht
    · rw [discoverWithDialect] at ht
      split at ht
      · cases ht
      · simp only [List.mem_filterMap] at ht
        obtain ⟨a, -, hfa⟩ := ht
        rw [discoverTable] at hfa
        split at hfa
        · cases hfa
        · cases hfa
          rw [buildRemoteColumns] at hc
          simp only [List.mem_map] at hc
          obtain ⟨colRow, -, rfl⟩ := hc
          exact buildRemoteColumn_fk_iff _ _ colRow
  · intro dbExec t ht c hc
    rw [SqliteEngine.getSchema] at ht
    simp only at ht
    split at ht
    · cases ht
    · split at ht
      · next tables hb => exact sqliteBuildTables_fk_iff dbExec _ tables hb t ht c hc
      · cases ht
  · decide

/-- C7 witness: the invariant at the `_id` column of the document-store
engine's `users` table. -/
theorem isForeignKey_iff_references_witness :
    mongoIdColumn.isForeignKey = true ↔ mongoIdColumn.references.isSome = true :=
  isForeignKey_iff_references.2.2 mongoUsersTable (by decide) mongoIdColumn (by decide)

/-- A table whose list-columns query errored is skipped by the
discovery loop. -/
theorem discoverTable_of_err (exec : String → QueryResult) (d : DbDialect) (tableName : JsVal)
    (h : (exec ((dialectQueriesFor d).getColumns (jsTemplateString tableName))).hasError = true) :
    discoverTable exec d tableName = none := by
  rw [discoverTable]
  simp [h]

/-- A table whose list-columns query succeeded is kept, with columns
built from the list-columns and list-foreign-keys results. -/
theorem discoverTable_of_ok (exec : String → QueryResult) (d : DbDialect) (tableName : JsVal)
    (h : (exec ((dialectQueriesFor d).getColumns (jsTemplateString tableName))).hasError = false) :
    discoverTable exec d tableName =
      some { name := tableName
             columns := buildRemoteColumns d
               (exec ((dialectQueriesFor d).getColumns (jsTemplateString tableName)))
               (exec ((dialectQueriesFor d).getForeignKeys (jsTemplateString tableName))) } := by
  rw [discoverTable]
  simp [h]

/-- The discovery loop never renames a table. -/
theorem discoverTable_name (exec : String → QueryResult) (d : DbDialect) (a : JsVal)
    (t : TableDefinition) (h : discoverTable exec d a = some t) : t.name = a := by
  rw [discoverTable] at h
  split at h
  · cases h
  · cases h
    rfl

/-- With an empty foreign-key row set, every built column is a
non-foreign-key column without a reference. -/
theorem buildRemoteColumn_noFks (d : DbDialect) (colRow : JsObj) :
    (buildRemoteColumn d [] colRow).isForeignKey = false ∧
      (buildRemoteColumn d [] colRow).references = none := by
  unfold buildRemoteColumn
  simp

/-- C9: during remote schema discovery, a discovered table whose
list-columns query errors is omitted from the returned schema; one
whose list-foreign-keys query errors is kept with an empty foreign-key
edge set; and discovery (a total function here) still returns with
every table it could resolve. -/
theorem getRemoteDatabaseSchema_partial_failure
    (exec : String → QueryResult) (credential : CredentialEntry) (dialect : DbDialect)
    (hd : dialectOfString? (normalizeDbType credential.dbType) = some dialect)
    (hT : (exec (dialectQueriesFor dialect).getTables).hasError = false) :
    ∀ tableName ∈ discoveredTableNames exec dialect,
      ((exec ((dialectQueriesFor dialect).getColumns (jsTemplateString tableName))).hasError = true →
        ∀ t ∈ (getRemoteDatabaseSchema exec credential).tables, t.name ≠ tableName) ∧
      ((exec ((dialectQueriesFor dialect).getColumns (jsTemplateString tableName))).hasError = false →
        ∃ t ∈ (getRemoteDatabaseSchema exec credential).tables, t.name = tableName ∧
          ((exec ((dialectQueriesFor dialect).getForeignKeys (jsTemplateString tableName))).hasError = true →
            ∀ c ∈ t.columns, c.isForeignKey = false ∧ c.references = none)) := by
  have hg : (getRemoteDatabaseSchema exec credential).tables =
      (discoveredTableNames exec dialect).filterMap (discoverTable exec dialect) := by
    rw [getRemoteDatabaseSchema, hd]
    show (discoverWithDialect exec dialect).tables = _
    simp [discoverWithDialect, hT]
  intro tableName hmem
  constructor
  · intro hce t ht heq
    rw [hg] at ht
    rw [List.mem_filterMap] at ht
    obtain ⟨a, -, hfa⟩ := ht
    have hname : t.name = a := discoverTable_name exec dialect a t hfa
    rw [hname] at heq
    rw [heq, discoverTable_of_err exec dialect tableName hce] at hfa
    cases hfa
  · intro hce
    refine ⟨{ name := tableName
              columns := buildRemoteColumns dialect
                (exec ((dialectQueriesFor dialect).getColumns (jsTemplateString tableName)))
                (exec ((dialectQueriesFor dialect).getForeignKeys (jsTemplateString tableName))) },
      ?_, rfl, ?_⟩
    · rw [hg]
      exact List.mem_filterMap.mpr ⟨tableName, hmem, discoverTable_of_ok exec dialect tableName hce⟩
    · intro hfk c hc
      simp only [buildRemoteColumns, hfk] at hc
      simp only [List.mem_map] at hc
      obtain ⟨colRow, -, rfl⟩ := hc
      exact buildRemoteColumn_noFks dialect colRow

/-- C9 witness: over the fixture execution path where table `a`'s
list-columns query fails, no table named `a` appears in the discovered
schema. -/
theorem getRemoteDatabaseSchema_partial_failure_witness :
    TableDefinition.mk (.str "a") [] ∉ (getRemoteDatabaseSchema execPartial credSqlite).tables :=
  fun h =>
    (getRemoteDatabaseSchema_partial_failure execPartial credSqlite .sqlite (by decide) (by decide)
      (.str "a") (by decide)).1 (by decide) (TableDefinition.mk (.str "a") []) h rfl

/-- An element produced by `getLast?` is a member of the list. -/
theorem mem_of_getLast?_eq {α : Type} (l : List α) (a : α) (h : l.getLast? = some a) :
    a ∈ l := by
  have hne : l ≠ [] := by
    intro hl
    subst hl
    simp at h
  rw [List.getLast?_eq_getLast_of_ne_nil hne] at h
  have h2 := Option.some.inj h
  rw [← h2]
  exact List.getLast_mem hne

/-- Case analysis of one pair's candidate: either no tier applies, or
the candidate sits in tier 10, 8 (declared foreign keys, not marked
heuristic) or tier 2 (marked heuristic). -/
theorem pairCandidate_cases (schema : DbSchema) (tableDef : TableDefinition)
    (newTable existing : String) :
    pairCandidate schema tableDef newTable existing = none ∨
    (∃ j, pairCandidate schema tableDef newTable existing = some (10, j) ∧ j.isHeuristic = false) ∨
    (∃ j, pairCandidate schema tableDef newTable existing = some (8, j) ∧ j.isHeuristic = false) ∨
    (∃ j, pairCandidate schema tableDef newTable existing = some (2, j) ∧ j.isHeuristic = true) := by
  unfold pairCandidate
  cases fkMatch tableDef existing with
  | some fk => exact Or.inr (Or.inl ⟨_, rfl, rfl⟩)
  | none =>
    cases revFkOf schema newTable existing with
    | some revFk => exact Or.inr (Or.inr (Or.inl ⟨_, rfl, rfl⟩))
    | none =>
      cases (sharedKeyColumns tableDef (existingDefOf schema existing)).head? with
      | some c0 => exact Or.inr (Or.inr (Or.inr ⟨_, rfl, rfl⟩))
      | none => exact Or.inl rfl

/-- The tier of a pair with a candidate. -/
theorem pairTier_eq_of_some (schema : DbSchema) (tableDef : TableDefinition)
    (newTable existing : String) (t : Int) (j : PendingJoin)
    (h : pairCandidate schema tableDef newTable existing = some (t, j)) :
    pairTier schema tableDef newTable existing = t := by
  simp [pairTier, h]

/-- The tier of a pair without a candidate. -/
theorem pairTier_eq_of_none (schema : DbSchema) (tableDef : TableDefinition)
    (newTable existing : String)
    (h : pairCandidate schema tableDef newTable existing = none) :
    pairTier schema tableDef newTable existing = -1 := by
  simp [pairTier, h]

/-- Every pair tier is −1, 2, 8 or 10. -/
theorem pairTier_cases (schema : DbSchema) (tableDef : TableDefinition)
    (newTable existing : String) :
    pairTier schema tableDef newTable existing = -1 ∨
    pairTier schema tableDef newTable existing = 2 ∨
    pairTier schema tableDef newTable existing = 8 ∨
    pairTier schema tableDef newTable existing = 10 := by
  rcases pairCandidate_cases schema tableDef newTable existing with
    h | ⟨j, h, -⟩ | ⟨j, h, -⟩ | ⟨j, h, -⟩ <;>
    simp [pairTier, h]

/-- One loop iteration, in terms of the pair's candidate: the candidate
fires exactly when its tier is at least the current best score (so an
equal-tier candidate found later overwrites the current best join). -/
theorem scanStep_eq (schema : DbSchema) (tableDef : TableDefinition) (newTable : String)
    (acc : Int × Option PendingJoin) (existing : String)
    (hs : acc.1 = -1 ∨ acc.1 = 2 ∨ acc.1 = 8 ∨ acc.1 = 10) :
    scanStep schema tableDef newTable acc existing =
      (match pairCandidate schema tableDef newTable existing with
       | some (t, j) => if acc.1 ≤ t then (t, some j) else acc
       | none => acc) := by
  obtain ⟨s, j0⟩ := acc
  simp only at hs
  cases hfk : fkMatch tableDef existing with
  | some fk =>
    have h10 : s ≤ 10 := by rcases hs with rfl | rfl | rfl | rfl <;> decide
    simp [scanStep, pairCandidate, hfk, h10]
  | none =>
    cases hrev : revFkOf schema newTable existing with
    | some revFk =>
      rcases hs with rfl | rfl | rfl | rfl <;> simp [scanStep, pairCandidate, hfk, hrev]
    | none =>
      cases hsh : (sharedKeyColumns tableDef (existingDefOf schema existing)).head? with
      | some c0 =>
        rcases hs with rfl | rfl | rfl | rfl <;> simp [scanStep, pairCandidate, hfk, hrev, hsh]
      | none => simp [scanStep, pairCandidate, hfk, hrev, hsh]

/-- Left fold of `max` only grows its accumulator. -/
theorem foldl_max_init_le : ∀ (L : List Int) (a : Int), a ≤ L.foldl max a := by
  intro L
  induction L with
  | nil => intro a; exact le_refl a
  | cons x xs ih => intro a; exact le_trans (le_max_left a x) (ih (max a x))

/-- Left fold of `max` yields the accumulator or a list element. -/
theorem foldl_max_eq_or_mem : ∀ (L : List Int) (a : Int), L.foldl max a = a ∨ L.foldl max a ∈ L := by
  intro L
  induction L with
  | nil => intro a; exact Or.inl rfl
  | cons x xs ih =>
    intro a
    rcases ih (max a x) with h | h
    · rw [List.foldl_cons, h]
      rcases max_choice a x with hm | hm
      · exact Or.inl hm
      · exact Or.inr (by rw [hm]; exact List.mem_cons_self x xs)
    · exact Or.inr (List.mem_cons_of_mem x (by rw [List.foldl_cons]; exact h))

/-- Every list element is bounded by the left fold of `max`. -/
theorem mem_le_foldl_max : ∀ (L : List Int) (a b : Int), b ∈ L → b ≤ L.foldl max a := by
  intro L
  induction L with
  | nil => intro a b hb; cases hb
  | cons x xs ih =>
    intro a b hb
    rcases List.mem_cons.mp hb with rfl | hb
    · exact le_trans (le_max_right a b) (foldl_max_init_le xs (max a b))
    · exact ih (max a x) b hb

/-- The maximal tier over a snoc. -/
theorem maxTierOver_append (schema : DbSchema) (tableDef : TableDefinition) (newTable : String)
    (l : List String) (e : String) :
    maxTierOver schema tableDef newTable (l ++ [e]) =
      max (maxTierOver schema tableDef newTable l) (pairTier schema tableDef newTable e) := by
  unfold maxTierOver
  rw [List.map_append, List.foldl_append]
  rfl

/-- The maximal tier is at least the initial −1. -/
theorem neg_one_le_maxTierOver (schema : DbSchema) (tableDef : TableDefinition)
    (newTable : String) (l : List String) :
    -1 ≤ maxTierOver schema tableDef newTable l :=
  foldl_max_init_le _ _

/-- The maximal tier is −1, 2, 8 or 10. -/
theorem maxTierOver_cases (schema : DbSchema) (tableDef : TableDefinition)
    (newTable : String) (l : List String) :
    maxTierOver schema tableDef newTable l = -1 ∨
    maxTierOver schema tableDef newTable l = 2 ∨
    maxTierOver schema tableDef newTable l = 8 ∨
    maxTierOver schema tableDef newTable l = 10 := by
  rcases foldl_max_eq_or_mem (l.map (pairTier schema tableDef newTable)) (-1) with h | h
  · exact Or.inl h
  · rw [List.mem_map] at h
    obtain ⟨e, -, he⟩ := h
    unfold maxTierOver
    rw [← he]
    exact pairTier_cases schema tableDef newTable e

/-- A scanned table's tier is bounded by the maximal tier. -/
theorem pairTier_le_maxTierOver (schema : DbSchema) (tableDef : TableDefinition)
    (newTable : String) (l : List String) (e : String) (he : e ∈ l) :
    pairTier schema tableDef newTable e ≤ maxTierOver schema tableDef newTable l :=
  mem_le_foldl_max _ _ _ (List.mem_map_of_mem _ he)

/-- When no table yields a candidate, no join is selected. -/
theorem lastBestJoin_of_none (schema : DbSchema) (tableDef : TableDefinition)
    (newTable : String) (l : List String)
    (h : maxTierOver schema tableDef newTable l = -1) :
    lastBestJoin schema tableDef newTable l = none := by
  unfold lastBestJoin
  cases hy : (l.filter (fun e =>
      pairTier schema tableDef newTable e == maxTierOver schema tableDef newTable l)).getLast? with
  | none => rfl
  | some y =>
    have hmem := mem_of_getLast?_eq _ _ hy
    rw [List.mem_filter] at hmem
    have hty : pairTier schema tableDef newTable y = -1 := by
      have h2 : pairTier schema tableDef newTable y = maxTierOver schema tableDef newTable l := by
        simpa using hmem.2
      rw [h] at h2
      exact h2
    rcases pairCandidate_cases schema tableDef newTable y with
      hc | ⟨j, hc, -⟩ | ⟨j, hc, -⟩ | ⟨j, hc, -⟩
    · simp [hc]
    · rw [pairTier_eq_of_some schema tableDef newTable y 10 j hc] at hty; cases hty
    · rw [pairTier_eq_of_some schema tableDef newTable y 8 j hc] at hty; cases hty
    · rw [pairTier_eq_of_some schema tableDef newTable y 2 j hc] at hty; cases hty

/-- The selected join over a snoc: the appended table wins exactly when
it attains the new maximal tier. -/
theorem lastBestJoin_append (schema : DbSchema) (tableDef : TableDefinition) (newTable : String)
    (l : List String) (e : String) :
    lastBestJoin schema tableDef newTable (l ++ [e]) =
      (if pairTier schema tableDef newTable e = maxTierOver schema tableDef newTable (l ++ [e])
       then (pairCandidate schema tableDef newTable e).map (fun p => p.2)
       else lastBestJoin schema tableDef newTable l) := by
  by_cases hp : pairTier schema tableDef newTable e = maxTierOver schema tableDef newTable (l ++ [e])
  · rw [if_pos hp]
    unfold lastBestJoin
    rw [List.filter_append]
    have hfe : [e].filter (fun x =>
        pairTier schema tableDef newTable x == maxTierOver schema tableDef newTable (l ++ [e])) = [e] := by
      simp [hp]
    rw [hfe, List.getLast?_concat]
    rfl
  · rw [if_neg hp]
    have hle : pairTier schema tableDef newTable e ≤ maxTierOver schema tableDef newTable l := by
      rcases le_or_lt (pairTier schema tableDef newTable e) (maxTierOver schema tableDef newTable l) with h | h
      · exact h
      · exfalso
        apply hp
        rw [maxTierOver_append]
        exact (max_eq_right (le_of_lt h)).symm
    have hM : maxTierOver schema tableDef newTable (l ++ [e]) =
        maxTierOver schema tableDef newTable l := by
      rw [maxTierOver_append]
      exact max_eq_left hle
    unfold lastBestJoin
    rw [hM, List.filter_append]
    have hfe : [e].filter (fun x =>
        pairTier schema tableDef newTable x == maxTierOver schema tableDef newTable l) = [] := by
      have : ¬ pairTier schema tableDef newTable e = maxTierOver schema tableDef newTable l := by
        intro h
        exact hp (by rw [hM]; exact h)
      simp [this]
    rw [hfe, List.append_nil]

/-- Characterization of the `handleEditorDrop` scan: the final score is
the maximal tier over the scan order, and the final join is the
candidate of the last existing table attaining that tier. -/
theorem scanFold_characterization (schema : DbSchema) (tableDef : TableDefinition)
    (newTable : String) (l : List String) :
    l.foldl (scanStep schema tableDef newTable) (-1, none) =
      (maxTierOver schema tableDef newTable l, lastBestJoin schema tableDef newTable l) := by
  induction l using List.reverseRecOn with
  | nil => simp [maxTierOver, lastBestJoin]
  | append_singleton l e ih =>
    rw [List.foldl_append, ih, List.foldl_cons, List.foldl_nil]
    rw [scanStep_eq schema tableDef newTable _ e (maxTierOver_cases schema tableDef newTable l)]
    rw [lastBestJoin_append]
    cases hc : pairCandidate schema tableDef newTable e with
    | none =>
      have hte := pairTier_eq_of_none schema tableDef newTable e hc
      have hm : maxTierOver schema tableDef newTable (l ++ [e]) =
          maxTierOver schema tableDef newTable l := by
        rw [maxTierOver_append, hte]
        exact max_eq_left (neg_one_le_maxTierOver schema tableDef newTable l)
      rw [hm]
      by_cases hMl : maxTierOver schema tableDef newTable l = -1
      · rw [if_pos (by rw [hte, hMl])]
        rw [lastBestJoin_of_none schema tableDef newTable l hMl]
        rfl
      · rw [if_neg (by rw [hte]; exact fun h => hMl h.symm)]
    | some p =>
      obtain ⟨t, j⟩ := p
      have hte := pairTier_eq_of_some schema tableDef newTable e t j hc
      dsimp only
      by_cases hle : maxTierOver schema tableDef newTable l ≤ t
      · rw [if_pos hle]
        have hm : maxTierOver schema tableDef newTable (l ++ [e]) = t := by
          rw [maxTierOver_append, hte]
          exact max_eq_right hle
        rw [hm, if_pos hte]
        rfl
      · rw [if_neg hle]
        have hm : maxTierOver schema tableDef newTable (l ++ [e]) =
            maxTierOver schema tableDef newTable l := by
          rw [maxTierOver_append, hte]
          exact max_eq_left (le_of_not_le hle)
        rw [hm]
        rw [if_neg (by rw [hte]; intro h; exact hle (le_of_eq h.symm))]

/-- The scan result for one dragged table equals the candidate of the
last maximal-tier existing table. -/
theorem bestJoinFor_eq_lastBestJoin (schema : DbSchema) (newTable : String)
    (l : List String) (tableDef : TableDefinition)
    (htd : findTableDef schema newTable = some tableDef) :
    bestJoinFor schema newTable l = lastBestJoin schema tableDef newTable l := by
  unfold bestJoinFor
  rw [htd]
  show (List.foldl (scanStep schema tableDef newTable) (-1, none) l).2 = _
  rw [scanFold_characterization]

/-- C1 counterexample: dragging table `A` into a query already
containing `T1` and `T2`, where both existing tables yield tier-10
candidates (equal score in the same tier), selects the join against
`T2` — the last existing table in scan order — not the first, `T1`. -/
theorem joinInference_first_tie_refuted :
    pairTier cexSchema cexTableA "A" "T1" = 10 ∧
    pairTier cexSchema cexTableA "A" "T2" = 10 ∧
    (bestJoinFor cexSchema "A" ["T1", "T2"]).map (fun j => j.existingTable) = some "T2" ∧
    ¬ (bestJoinFor cexSchema "A" ["T1", "T2"]).map (fun j => j.existingTable) = some "T1" := by
  decide

/-- C1 amended: when existing tables yield candidate joins with an
equal score in the same tier, the heuristic selects the join against
the last existing table encountered in the scan order — in general, the
selected join is the candidate of the last existing table attaining the
maximal tier. -/
theorem bestJoinFor_last_tie_wins (schema : DbSchema) (newTable : String) (l : List String)
    (tableDef : TableDefinition) (htd : findTableDef schema newTable = some tableDef)
    (e : String)
    (hlast : (l.filter (fun x => pairTier schema tableDef newTable x ==
        maxTierOver schema tableDef newTable l)).getLast? = some e) :
    bestJoinFor schema newTable l =
      (pairCandidate schema tableDef newTable e).map (fun p => p.2) := by
  rw [bestJoinFor_eq_lastBestJoin schema newTable l tableDef htd]
  unfold lastBestJoin
  rw [hlast]
  rfl

/-- C1 witness: the amended rule at the concrete two-way tier-10 tie,
where `T2` is the last maximal-tier table. -/
theorem bestJoinFor_last_tie_wins_witness :
    bestJoinFor cexSchema "A" ["T1", "T2"] =
      (pairCandidate cexSchema cexTableA "A" "T2").map (fun p => p.2) :=
  bestJoinFor_last_tie_wins cexSchema "A" ["T1", "T2"] cexTableA (by decide) "T2" (by decide)

/-- C6: whenever some already-present table qualifies for a declared
foreign-key join (tier 10 or 8) with the dragged table, the selected
join is a declared-foreign-key join and never the tier-2 shared-column
heuristic: scoring is strict tier priority, so a lower-tier candidate —
no matter where it appears in the scan order — can never displace a
higher-tier one. -/
theorem bestJoinFor_fk_priority (schema : DbSchema) (newTable : String) (l : List String)
    (tableDef : TableDefinition) (htd : findTableDef schema newTable = some tableDef)
    (e : String) (he : e ∈ l) (hfk : 8 ≤ pairTier schema tableDef newTable e) :
    ∃ j, bestJoinFor schema newTable l = some j ∧ j.isHeuristic = false := by
  have hM : 8 ≤ maxTierOver schema tableDef newTable l :=
    le_trans hfk (pairTier_le_maxTierOver schema tableDef newTable l e he)
  have hMne : maxTierOver schema tableDef newTable l ≠ -1 := by omega
  have hmem : ∃ x ∈ l, pairTier schema tableDef newTable x =
      maxTierOver schema tableDef newTable l := by
    rcases foldl_max_eq_or_mem (l.map (pairTier schema tableDef newTable)) (-1) with h | h
    · exact absurd h hMne
    · rw [List.mem_map] at h
      obtain ⟨x, hx, hfx⟩ := h
      exact ⟨x, hx, hfx⟩
  obtain ⟨x, hx, htx⟩ := hmem
  have hfilter : x ∈ l.filter (fun y => pairTier schema tableDef newTable y ==
      maxTierOver schema tableDef newTable l) :=
    List.mem_filter.mpr ⟨hx, by simp [htx]⟩
  obtain ⟨y, hy⟩ := Option.isSome_iff_exists.mp
    (List.getLast?_isSome.mpr (List.ne_nil_of_mem hfilter))
  have hymem := mem_of_getLast?_eq _ _ hy
  rw [List.mem_filter] at hymem
  have hty : pairTier schema tableDef newTable y = maxTierOver schema tableDef newTable l := by
    simpa using hymem.2
  have h8 : 8 ≤ pairTier schema tableDef newTable y := by rw [hty]; exact hM
  rcases pairCandidate_cases schema tableDef newTable y with
    hc | ⟨j, hc, hj⟩ | ⟨j, hc, hj⟩ | ⟨j, hc, hj⟩
  · rw [pairTier_eq_of_none schema tableDef newTable y hc] at h8
    exact absurd h8 (by decide)
  · refine ⟨j, ?_, hj⟩
    rw [bestJoinFor_eq_lastBestJoin schema newTable l tableDef htd]
    unfold lastBestJoin
    rw [hy]
    simp [hc]
  · refine ⟨j, ?_, hj⟩
    rw [bestJoinFor_eq_lastBestJoin schema newTable l tableDef htd]
    unfold lastBestJoin
    rw [hy]
    simp [hc]
  · rw [pairTier_eq_of_some schema tableDef newTable y 2 j hc] at h8
    exact absurd h8 (by decide)

/-- C6 witness: with `A` declaring a foreign key to `T1`, the selected
join is a non-heuristic declared-foreign-key join. -/
theorem bestJoinFor_fk_priority_witness :
    ∃ j, bestJoinFor cexSchema "A" ["T1", "T2"] = some j ∧ j.isHeuristic = false :=
  bestJoinFor_fk_priority cexSchema "A" ["T1", "T2"] cexTableA (by decide) "T1" (by decide)
    (by decide)
